import Mathlib

/-!
Verification of the budget normalization and standardization pipeline of
`owen-for-maine` (files `b_App/data_processing.py`, `main.py`,
`a_Configs/config.py`).

Modelling notes (shallow embedding of the pandas code):

* A pandas DataFrame indexed by `(Department, Funding Source)` with one
  numeric column per fiscal year is embedded in long form: a `Table` is a
  list of `Row`s `(dept, fs, year, amt)`.  A wide-frame cell holding `NaN`
  corresponds to the absence of the long-form row; the column-wise pandas
  operations (`groupby(...).sum()`, `subtract`, `xs(...)[year]`) act on each
  year column independently, which in long form means the year joins the
  grouping/alignment key.
* Amounts are embedded as exact rationals `ℚ`; the float computations of the
  source are reproduced exactly except for rounding error, which no claim
  depends on.  Where IEEE-754 non-finite values matter (the through-time
  comparator and the economic index builder divide and may produce
  `inf`/`NaN`), cells are embedded as `FVal`, rationals extended with
  `inf`, `-inf` and `NaN` with IEEE arithmetic on the operations used.
* pandas sorts group keys and `sort_index` sorts rows; every property stated
  below is row-order invariant (lookups, membership, sums), so key lists are
  modelled by `List.dedup` (a duplicate-free list with the same members)
  and the final `sort_values` of the comparator by an explicit insertion
  sort.
* Operations that raise in pandas (`drop` of an absent label, `xs` on an
  absent level value, selecting an absent year column) are embedded in
  `Except String`.
* `print`-style reporting of unmapped departments is embedded as an extra
  returned list of department names.
-/

namespace OwenForMaine

/-- IEEE-754 double values as used by the pipeline: an exact rational,
positive or negative infinity, or NaN. -/
inductive FVal where
  | num (q : ℚ)
  | inf
  | ninf
  | nan
deriving DecidableEq, Repr

namespace FVal

/-- IEEE subtraction on the embedded values. -/
def fsub : FVal → FVal → FVal
  | nan, _ => nan
  | _, nan => nan
  | num a, num b => num (a - b)
  | num _, inf => ninf
  | num _, ninf => inf
  | inf, num _ => inf
  | inf, inf => nan
  | inf, ninf => inf
  | ninf, num _ => ninf
  | ninf, inf => ninf
  | ninf, ninf => nan

/-- IEEE division on the embedded values (zero is unsigned: the pipeline's
zeros are +0.0, so `x / 0` carries the sign of `x`). -/
def fdiv : FVal → FVal → FVal
  | nan, _ => nan
  | _, nan => nan
  | num a, num b =>
      if b = 0 then (if a > 0 then inf else if a < 0 then ninf else nan)
      else num (a / b)
  | num _, inf => num 0
  | num _, ninf => num 0
  | inf, num b => if b < 0 then ninf else inf
  | ninf, num b => if b < 0 then inf else ninf
  | inf, inf => nan
  | inf, ninf => nan
  | ninf, inf => nan
  | ninf, ninf => nan

/-- IEEE multiplication on the embedded values. -/
def fmul : FVal → FVal → FVal
  | nan, _ => nan
  | _, nan => nan
  | num a, num b => num (a * b)
  | inf, num b => if b > 0 then inf else if b < 0 then ninf else nan
  | ninf, num b => if b > 0 then ninf else if b < 0 then inf else nan
  | num a, inf => if a > 0 then inf else if a < 0 then ninf else nan
  | num a, ninf => if a > 0 then ninf else if a < 0 then inf else nan
  | inf, inf => inf
  | inf, ninf => ninf
  | ninf, inf => ninf
  | ninf, ninf => inf

/-- True exactly on the two infinities. -/
def isInf : FVal → Bool
  | inf => true
  | ninf => true
  | _ => false

/-- Model of `df.replace([np.inf, -np.inf], np.nan)` on one cell. -/
def replaceInf : FVal → FVal
  | inf => nan
  | ninf => nan
  | v => v

/-- Model of `.fillna(0)` on one cell. -/
def fillna0 : FVal → ℚ
  | num q => q
  | _ => 0

theorem replaceInf_not_isInf (v : FVal) : (replaceInf v).isInf = false := by
  cases v <;> rfl

end FVal

/-- numpy/pandas `round(0)`: round half to even, to an integer. -/
def roundHalfEven (q : ℚ) : ℤ :=
  let f := ⌊q⌋
  if q - f < 1 / 2 then f
  else if q - f > 1 / 2 then f + 1
  else if f % 2 = 0 then f else f + 1

/-- pandas `.str.upper()` on an ASCII label: uppercase every character. -/
def strUpper (s : String) : String := ⟨s.data.map Char.toUpper⟩

/-- One long-form line item: department, funding source, fiscal year, amount. -/
structure Row where
  dept : String
  fs : String
  year : String
  amt : ℚ
deriving DecidableEq, Repr

/-- A budget table: the long form of a DataFrame indexed by
`(Department, Funding Source)` with one column per year. -/
abbrev Table := List Row

namespace Row

/-- The full long-form key of a row. -/
def keyOf (r : Row) : String × String × String := (r.dept, r.fs, r.year)

end Row

open Row

/-- Sum of the amounts of the rows with the given full key. -/
def sumKey (t : Table) (k : String × String × String) : ℚ :=
  ((t.filter (fun r => keyOf r = k)).map Row.amt).sum

/-- Sum of the amounts of the rows with the given `(dept, year)` key
(the `groupby(level='Department').sum()` fibers, years being columns). -/
def sumDY (t : Table) (k : String × String) : ℚ :=
  ((t.filter (fun r => (r.dept, r.year) = k)).map Row.amt).sum

/-- Sum of the amounts of the rows with the given `(fs, year)` key
(the `groupby(level='Funding Source').sum()` fibers, years being columns). -/
def sumFYkey (t : Table) (k : String × String) : ℚ :=
  ((t.filter (fun r => (r.fs, r.year) = k)).map Row.amt).sum

/-- Model of `groupby(['Department', 'Funding Source']).sum()` acting on every year
column: one output row per distinct full key, holding the fiber sum. -/
def groupbyDFY (t : Table) : Table :=
  ((t.map keyOf).dedup).map (fun k => ⟨k.1, k.2.1, k.2.2, sumKey t k⟩)

/-- First row with the given `(dept, fs, year)` key, if any (a present
wide-frame cell; `none` is an absent/NaN cell). -/
def lookupAmt3 (t : Table) (d fs y : String) : Option ℚ :=
  (t.find? (fun r => r.dept = d && r.fs = fs && r.year = y)).map Row.amt

/-- The `(dept, fs, year)` cell as an IEEE value: NaN when absent. -/
def lookupCell (t : Table) (d fs y : String) : FVal :=
  match lookupAmt3 t d fs y with
  | some q => .num q
  | none => .nan

/-- The grand-total sentinel department label dropped by the reconciler. -/
def GRAND_TOTAL_LABEL : String := "GRAND TOTALS - ALL DEPARTMENTS"

/-- The department-total funding-source label. -/
def DEPT_TOTAL : String := "DEPARTMENT TOTAL"

/-- The excluded federal funding-source label. -/
def FEDERAL_FUND : String := "FEDERAL EXPENDITURES FUND"

/-- The synthetic ex-federal funding-source label. -/
def DEPT_TOTAL_EX_FEDERAL : String := "DEPARTMENT TOTAL ex FEDERAL"

/-- Model of `clean_total_rows`: drop the grand-total sentinel rows (pandas `drop`
raises `KeyError` when the label is absent), then append a computed
`TOTAL` department holding, per funding source and year, the sum over the
remaining departments.  (`sort_index` only permutes rows.) -/
def clean_total_rows (as_reported_df : Table) : Except String Table :=
  if as_reported_df.any (fun r => r.dept = GRAND_TOTAL_LABEL) then
    let no_total_df := as_reported_df.filter (fun r => ¬ r.dept = GRAND_TOTAL_LABEL)
    let total_df :=
      ((no_total_df.map (fun r => (r.fs, r.year))).dedup).map
        (fun k => (⟨"TOTAL", k.1, k.2, sumFYkey no_total_df k⟩ : Row))
    .ok (no_total_df ++ total_df)
  else
    .error "KeyError: GRAND TOTALS - ALL DEPARTMENTS not found in level Department"

/-- Model of `add_department_total_ex_federal`: per department, a synthetic
`DEPARTMENT TOTAL ex FEDERAL` funding source equal to
`DEPARTMENT TOTAL − FEDERAL EXPENDITURES FUND`, falling back to the
department total when the department has no federal cell
(`(total_df - federal_df).fillna(total_df)`; cells NaN on the total side
stay NaN, i.e. produce no row).  pandas `xs` raises `KeyError` when the
requested funding source is absent from the whole table. -/
def add_department_total_ex_federal (df : Table) : Except String Table :=
  if df.any (fun r => r.fs = FEDERAL_FUND) then
    if df.any (fun r => r.fs = DEPT_TOTAL) then
      let federal_df := df.filter (fun r => r.fs = FEDERAL_FUND)
      let total_df := df.filter (fun r => r.fs = DEPT_TOTAL)
      let ex_federal_df := total_df.map (fun r =>
        let amt :=
          match (federal_df.find? (fun f => f.dept = r.dept && f.year = r.year)).map Row.amt with
          | some fq => r.amt - fq
          | none => r.amt
        (⟨r.dept, DEPT_TOTAL_EX_FEDERAL, r.year, amt⟩ : Row))
      .ok (df ++ ex_federal_df)
    else .error "KeyError: DEPARTMENT TOTAL not found in level Funding Source"
  else .error "KeyError: FEDERAL EXPENDITURES FUND not found in level Funding Source"

/-- Model of `process_me_budget`: clean the total rows, then add the ex-federal view. -/
def process_me_budget (me_budget_as_reported_df : Table) : Except String Table := do
  let me_budget_clean_totals_df ← clean_total_rows me_budget_as_reported_df
  add_department_total_ex_federal me_budget_clean_totals_df

/-- One row of the direct mapping tier
(`department_mapping.csv`: State, As Reported, Standardized). -/
structure MapRow where
  state : String
  asReported : String
  standardized : String
deriving DecidableEq, Repr

/-- One row of the sub-department mapping tier
(State, As Reported, Funding Source, Standardized). -/
structure SubMapRow where
  state : String
  asReported : String
  fs : String
  standardized : String
deriving DecidableEq, Repr

/-- The sub-department rules of one state matching a given row, i.e. the
partners of the inner merge on `(Department, Funding Source)` =
`(As Reported, Funding Source)`. -/
def subMatches (state_map : List SubMapRow) (r : Row) : List SubMapRow :=
  state_map.filter (fun m => m.asReported = r.dept && m.fs = r.fs)

/-- Model of `standardize_budget_from_sub_departments`: inner-merge the table with the
state's sub-department rules, rename matched rows to the upper-cased
standardized name, force the funding source to `DEPARTMENT TOTAL`, and
group-sum colliding keys. -/
def standardize_budget_from_sub_departments (as_reported_df : Table)
    (sub_category_map_df : List SubMapRow) (full_state_name : String) : Table :=
  let state_mapping_df := sub_category_map_df.filter (fun m => m.state = full_state_name)
  let standardized_df := as_reported_df.flatMap (fun r =>
    (subMatches state_mapping_df r).map (fun m =>
      (⟨strUpper m.standardized, DEPT_TOTAL, r.year, r.amt⟩ : Row)))
  groupbyDFY standardized_df

/-- The direct rules of one state matching a given row's department
(the partners of the left merge on `Department` = `As Reported`). -/
def directMatches (state_map : List MapRow) (r : Row) : List MapRow :=
  state_map.filter (fun m => m.asReported = r.dept)

/-- Model of `standardize_budget_from_direct_mapping`: left-merge the table with the
state's direct rules on the department name; rows with no rule keep a NaN
standardized name, are reported (the `print` of unmapped departments is
embedded as the second component) and are then dropped by the group-by
(pandas `groupby` drops NaN keys); mapped rows are renamed to the
upper-cased standardized name, keeping funding-source granularity, and
group-summed. -/
def standardize_budget_from_direct_mapping (as_reported_df : Table)
    (category_mapping_df : List MapRow) (full_state_name : String) :
    Table × List String :=
  let state_mapping_df := category_mapping_df.filter (fun m => m.state = full_state_name)
  let merged : List (Row × Option String) := as_reported_df.flatMap (fun r =>
    match directMatches state_mapping_df r with
    | [] => [(r, none)]
    | ms => ms.map (fun m => (r, some (strUpper m.standardized))))
  let unmapped_depts :=
    (((merged.filter (fun p => p.2 = none)).map (fun p => p.1.dept)).dedup)
  let kept := merged.filterMap (fun p => p.2.map (fun s =>
    (⟨s, p.1.fs, p.1.year, p.1.amt⟩ : Row)))
  (groupbyDFY kept, unmapped_depts)

/-- Model of `identify_double_counted_departments`: the rows already claimed by the
sub-department tier (the inner merge keeps each matched line item once per
matching rule), together with their per-department roll-up under a
synthetic `DEPARTMENT TOTAL` funding source. -/
def identify_double_counted_departments (as_reported_df : Table)
    (sub_category_map_df : List SubMapRow) (full_state_name : String) : Table :=
  let state_sub_category_map_df :=
    sub_category_map_df.filter (fun m => m.state = full_state_name)
  let as_reported_df_used := as_reported_df.flatMap (fun r =>
    (subMatches state_sub_category_map_df r).map (fun _ => r))
  let totals_already_mapped :=
    ((as_reported_df_used.map (fun r => (r.dept, r.year))).dedup).map
      (fun k => (⟨k.1, DEPT_TOTAL, k.2, sumDY as_reported_df_used k⟩ : Row))
  totals_already_mapped ++ as_reported_df_used

/-- Model of `DataFrame.subtract(other, fill_value=0)`: align on the union of the full
keys, treating a key absent from one side as 0. -/
def subtractFill (a b : Table) : Table :=
  ((a.map keyOf ++ b.map keyOf).dedup).map
    (fun k => (⟨k.1, k.2.1, k.2.2, sumKey a k - sumKey b k⟩ : Row))

/-- Model of `standardize_budget`: sub-department path first, subtract its claimed
rows from the raw pool, run the direct path on the remainder, union both
paths and group-sum.  The reported unmapped departments of the direct pass
are returned alongside. -/
def standardize_budget (as_reported_df : Table) (category_mapping_df : List MapRow)
    (sub_category_map_df : List SubMapRow) (full_state_name : String) :
    Table × List String :=
  let standardized_df_from_sub_departments :=
    standardize_budget_from_sub_departments as_reported_df sub_category_map_df full_state_name
  let totals_already_mapped :=
    identify_double_counted_departments as_reported_df sub_category_map_df full_state_name
  let remaining_funds_df := subtractFill as_reported_df totals_already_mapped
  let direct :=
    standardize_budget_from_direct_mapping remaining_funds_df category_mapping_df full_state_name
  (groupbyDFY (direct.1 ++ standardized_df_from_sub_departments), direct.2)

/-- Model of `create_state_comparison`: per standardized department present in either
table, the two `DEPARTMENT TOTAL` amounts for the requested year, with
NaN (a department or cell absent on one side) filled with 0.
pandas raises `KeyError` when `xs('DEPARTMENT TOTAL')` finds no row or when
the year is not a column of either frame. -/
def create_state_comparison (year : String) (me_standardized_df nh_standardized_df : Table) :
    Except String (List (String × ℚ × ℚ)) :=
  if (me_standardized_df.any (fun r => r.fs = DEPT_TOTAL)
      && nh_standardized_df.any (fun r => r.fs = DEPT_TOTAL)
      && me_standardized_df.any (fun r => r.year = year)
      && nh_standardized_df.any (fun r => r.year = year)) then
    let depts :=
      (((me_standardized_df.filter (fun r => r.fs = DEPT_TOTAL)).map Row.dept
        ++ (nh_standardized_df.filter (fun r => r.fs = DEPT_TOTAL)).map Row.dept).dedup)
    .ok (depts.map (fun d =>
      (d, (lookupCell me_standardized_df d DEPT_TOTAL year).fillna0,
          (lookupCell nh_standardized_df d DEPT_TOTAL year).fillna0)))
  else .error "KeyError"

/-- Model of `(df / Config.DEPARTMENT_SCALE).round(0)`: scale to millions and round
half to even (numpy rounding); NaN cells (absent rows) stay NaN. -/
def scaleRound (t : Table) : Table :=
  t.map (fun r => ⟨r.dept, r.fs, r.year, (roundHalfEven (r.amt / 1000000) : ℚ)⟩)

/-- One row of the through-time comparison frame: the `ME`, `NH` and
`ME vs NH` column groups of `create_state_comparison_through_time`. -/
structure CompRow where
  dept : String
  meEnd : FVal
  meStart : FVal
  meChange : FVal
  mePerc : FVal
  nhEnd : FVal
  nhStart : FVal
  nhChange : FVal
  nhPerc : FVal
  diffEnd : FVal
  diffEndPerc : FVal
  diffStart : FVal
  growthDiff : FVal
deriving DecidableEq, Repr

/-- The cells of a through-time comparison row. -/
def CompRow.cells (r : CompRow) : List FVal :=
  [r.meEnd, r.meStart, r.meChange, r.mePerc, r.nhEnd, r.nhStart, r.nhChange,
   r.nhPerc, r.diffEnd, r.diffEndPerc, r.diffStart, r.growthDiff]

/-- The `sort_values(ascending=False)` order on the sort column: descending by
value with NaN last. -/
def FVal.sortBefore : FVal → FVal → Bool
  | .nan, .nan => true
  | .nan, _ => false
  | _, .nan => true
  | .inf, _ => true
  | _, .inf => false
  | _, .ninf => true
  | .ninf, _ => false
  | .num a, .num b => b ≤ a

/-- Insert into a sorted list (stable insertion sort step). -/
def insertBy (le : α → α → Bool) (x : α) : List α → List α
  | [] => [x]
  | y :: ys => if le x y then x :: y :: ys else y :: insertBy le x ys

/-- Stable insertion sort by a boolean comparator. -/
def sortBy (le : α → α → Bool) : List α → List α
  | [] => []
  | x :: xs => insertBy le x (sortBy le xs)

/-- One through-time comparison row for one department: the per-state
end/start levels, arithmetic and percentage changes, and the cross-state
differentials of `create_state_comparison_through_time`. -/
def throughTimeRow (meS nhS : Table) (start_year end_year d : String) : CompRow :=
  let meE := lookupCell meS d DEPT_TOTAL end_year
  let meB := lookupCell meS d DEPT_TOTAL start_year
  let nhE := lookupCell nhS d DEPT_TOTAL end_year
  let nhB := lookupCell nhS d DEPT_TOTAL start_year
  let meDiffArith := meE.fsub meB
  let nhDiffArith := nhE.fsub nhB
  { dept := d
    meEnd := meE
    meStart := meB
    meChange := meDiffArith
    mePerc := ((meE.fsub meB).fdiv meB).fmul (.num 100)
    nhEnd := nhE
    nhStart := nhB
    nhChange := nhDiffArith
    nhPerc := ((nhE.fsub nhB).fdiv nhB).fmul (.num 100)
    diffEnd := meE.fsub nhE
    diffEndPerc := ((meE.fsub nhE).fdiv nhE).fmul (.num 100)
    diffStart := meB.fsub nhB
    growthDiff := meDiffArith.fsub nhDiffArith }

/-- Model of `df.replace([np.inf, -np.inf], np.nan)` on a whole comparison row. -/
def CompRow.replaceInfRow (r : CompRow) : CompRow :=
  { dept := r.dept
    meEnd := r.meEnd.replaceInf
    meStart := r.meStart.replaceInf
    meChange := r.meChange.replaceInf
    mePerc := r.mePerc.replaceInf
    nhEnd := r.nhEnd.replaceInf
    nhStart := r.nhStart.replaceInf
    nhChange := r.nhChange.replaceInf
    nhPerc := r.nhPerc.replaceInf
    diffEnd := r.diffEnd.replaceInf
    diffEndPerc := r.diffEndPerc.replaceInf
    diffStart := r.diffStart.replaceInf
    growthDiff := r.growthDiff.replaceInf }

/-- Model of `create_state_comparison_through_time`: scale both standardized tables to
millions and round, take the `DEPARTMENT TOTAL` levels at the end and start
years, derive per-state arithmetic and percentage changes and the
cross-state differentials, assemble one row per department of either side,
sort descending by the ME end-year level, and replace `\u00b1inf` by NaN.
pandas raises `KeyError` when `xs('DEPARTMENT TOTAL')` finds no row or a
requested year is not a column of a frame. -/
def create_state_comparison_through_time (me_standardized_df nh_standardized_df : Table)
    (start_year end_year : String) : Except String (List CompRow) :=
  let meS := scaleRound me_standardized_df
  let nhS := scaleRound nh_standardized_df
  if (meS.any (fun r => r.fs = DEPT_TOTAL) && nhS.any (fun r => r.fs = DEPT_TOTAL)
      && meS.any (fun r => r.year = end_year) && nhS.any (fun r => r.year = end_year)
      && meS.any (fun r => r.year = start_year) && nhS.any (fun r => r.year = start_year)) then
    let depts :=
      (((meS.filter (fun r => r.fs = DEPT_TOTAL)).map Row.dept
        ++ (nhS.filter (fun r => r.fs = DEPT_TOTAL)).map Row.dept).dedup)
    let rows := depts.map (throughTimeRow meS nhS start_year end_year)
    let sorted := sortBy (fun a b => FVal.sortBefore a.meEnd b.meEnd) rows
    .ok (sorted.map CompRow.replaceInfRow)
  else .error "KeyError"

/-- One row of the economic-indicator frame after `transpose()`: a named
macro series holding one IEEE cell per year column (NaN cells arise from
the union alignment of series with different native start dates). -/
structure EconRow where
  name : String
  cells : List (String × FVal)
deriving DecidableEq, Repr

/-- The economic frame: rows are series, columns are years. -/
abbrev EconDf := List EconRow

/-- The value of `econ_df.iloc[:, 0]` for one row: the cell of the first
year column. -/
def firstCell (r : EconRow) : FVal :=
  match r.cells with
  | [] => .nan
  | (_, v) :: _ => v

/-- A cell of a series by year label (NaN when the label is absent). -/
def econLookup (cells : List (String × FVal)) (y : String) : FVal :=
  match cells.lookup y with
  | some v => v
  | none => .nan

/-- Model of `add_cpi_times_pop_growth_index`: append the element-wise product of the
`CPI` and `Maine Population` rows as `CPI & Population Growth`
(`.loc` raises `KeyError` when a row label is absent; the product aligns on
the union of the two year-label lists, NaN where one side is absent). -/
def add_cpi_times_pop_growth_index (economic_index_df : EconDf) : Except String EconDf :=
  match economic_index_df.find? (fun r => r.name = "CPI"),
        economic_index_df.find? (fun r => r.name = "Maine Population") with
  | some cpi, some pop =>
      let years := (cpi.cells.map Prod.fst ++ pop.cells.map Prod.fst).dedup
      let product := years.map (fun y =>
        (y, (econLookup cpi.cells y).fmul (econLookup pop.cells y)))
      .ok (economic_index_df ++ [⟨"CPI & Population Growth", product⟩])
  | _, _ => .error "KeyError"

/-- Model of `produce_economic_index_df` (given the already-fetched indicator frame):
`econ_df.div(econ_df.iloc[:, 0], axis=0)` divides every cell of a row by
that row's first-column cell, then the composite CPI × population row is
appended. -/
def produce_economic_index_df (econ_df : EconDf) : Except String EconDf :=
  let economic_index_df := econ_df.map (fun r =>
    { name := r.name
      cells := r.cells.map (fun c => (c.1, c.2.fdiv (firstCell r))) : EconRow })
  add_cpi_times_pop_growth_index economic_index_df

/-- The inputs of one run of `main`: the two as-reported tables, the two
mapping tiers, the result of the external FRED fetch
(`get_economic_indicators_df`, a blocking network call that may fail), and
the selected years. -/
structure Inputs where
  meRaw : Table
  nhRaw : Table
  catMap : List MapRow
  subMap : List SubMapRow
  econFetch : Except String EconDf
  startYear : String
  endYear : String
deriving Repr

/-- The tables a successful run of `main` produces (the core ones named by
the spec; presentation artifacts are out of scope). -/
structure PipelineOutput where
  meProcessed : Table
  meStd : Table
  nhStd : Table
  econIndex : EconDf
  comparison : List CompRow
deriving Repr

/-- The pipeline step sequence of `main` (`main.py`): process the Maine
budget, standardize both states, then fetch the economic indicators and
build the index — with no `try`/`except` around the fetch — and only then
build the through-time comparison (`create_styled_comparison_through_time`
calls `create_state_comparison_through_time`; the styling is presentation).
A failing step aborts the run at that point. -/
def mainPipeline (inp : Inputs) : Except String PipelineOutput := do
  let meProcessed ← process_me_budget inp.meRaw
  let meStd := (standardize_budget meProcessed inp.catMap inp.subMap "Maine").1
  let nhStd := (standardize_budget inp.nhRaw inp.catMap inp.subMap "New Hampshire").1
  let econRaw ← inp.econFetch
  let econIndex ← produce_economic_index_df econRaw
  let comparison ← create_state_comparison_through_time meStd nhStd inp.startYear inp.endYear
  return ⟨meProcessed, meStd, nhStd, econIndex, comparison⟩

/-! ### Generic sum/fiber lemmas -/

/-- The sum of the amounts of the rows whose key satisfies `p`. -/
def sumP {α K : Type} (key : α → K) (amt : α → ℚ) (p : K → Bool) (t : List α) : ℚ :=
  ((t.filter (fun r => p (key r))).map amt).sum

theorem sum_map_add {α : Type} (l : List α) (f g : α → ℚ) :
    (l.map (fun x => f x + g x)).sum = (l.map f).sum + (l.map g).sum := by
  induction l with
  | nil => simp
  | cons x xs ih => simp [ih]; ring

theorem sum_map_sub {α : Type} (l : List α) (f g : α → ℚ) :
    (l.map (fun x => f x - g x)).sum = (l.map f).sum - (l.map g).sum := by
  induction l with
  | nil => simp
  | cons x xs ih => simp [ih]; ring

theorem sum_map_ite_eq {K : Type} [DecidableEq K] (ks : List K) (hk : ks.Nodup)
    (c : K) (a : ℚ) :
    (ks.map (fun k => if c = k then a else 0)).sum = if c ∈ ks then a else 0 := by
  induction ks with
  | nil => simp
  | cons k ks ih =>
    rcases List.nodup_cons.mp hk with ⟨hknot, hnd⟩
    by_cases h : c = k
    · subst h
      have : c ∉ ks := hknot
      simp [ih hnd, this]
    · simp [h, ih hnd, Ne.symm h]

/-- Summing the fiber sums of a duplicate-free key list that covers a table,
restricted to keys satisfying `p`, equals summing the rows whose key
satisfies `p`. -/
theorem sum_fibers {α K : Type} [DecidableEq K] (key : α → K) (amt : α → ℚ)
    (p : K → Bool) (ks : List K) (hk : ks.Nodup) :
    ∀ t : List α, (∀ r ∈ t, key r ∈ ks) →
      ((ks.filter p).map (fun k => ((t.filter (fun r => key r = k)).map amt).sum)).sum
        = sumP key amt p t := by
  intro t
  induction t with
  | nil =>
    intro _
    simp only [sumP, List.filter_nil, List.map_nil, List.sum_nil]
    apply List.sum_eq_zero
    intro x hx
    rcases List.mem_map.mp hx with ⟨k, _, rfl⟩
    rfl
  | cons r t ih =>
    intro hcov
    have hrk : key r ∈ ks := hcov r (by simp)
    have hcov' : ∀ x ∈ t, key x ∈ ks := fun x hx => hcov x (by simp [hx])
    have hsplit : ∀ k : K,
        (((r :: t).filter (fun x => key x = k)).map amt).sum
          = (if key r = k then amt r else 0)
            + ((t.filter (fun x => key x = k)).map amt).sum := by
      intro k
      by_cases h : key r = k <;> simp [List.filter_cons, h]
    calc ((ks.filter p).map
            (fun k => (((r :: t).filter (fun x => key x = k)).map amt).sum)).sum
        = ((ks.filter p).map (fun k =>
            (if key r = k then amt r else 0)
              + ((t.filter (fun x => key x = k)).map amt).sum)).sum := by
          congr 1
          exact List.map_congr_left (fun k _ => hsplit k)
      _ = ((ks.filter p).map (fun k => if key r = k then amt r else 0)).sum
            + ((ks.filter p).map
                (fun k => ((t.filter (fun x => key x = k)).map amt).sum)).sum := by
          exact sum_map_add _ _ _
      _ = (if key r ∈ ks.filter p then amt r else 0) + sumP key amt p t := by
          rw [sum_map_ite_eq _ (hk.filter p), ih hcov']
      _ = sumP key amt p (r :: t) := by
          by_cases hp : p (key r)
          · have : key r ∈ ks.filter p := List.mem_filter.mpr ⟨hrk, hp⟩
            simp [sumP, List.filter_cons, hp, this]
          · have : key r ∉ ks.filter p := by
              intro hmem
              exact hp (List.mem_filter.mp hmem).2
            simp [sumP, List.filter_cons, hp, this]

/-- The sum of the amounts of the rows whose funding source and year satisfy
`q`; the department is irrelevant for every total-conservation statement. -/
def sumFY (q : String → String → Bool) (t : Table) : ℚ :=
  ((t.filter (fun r => q r.fs r.year)).map Row.amt).sum

theorem sumFY_append (q : String → String → Bool) (a b : Table) :
    sumFY q (a ++ b) = sumFY q a + sumFY q b := by
  simp [sumFY, List.filter_append]

/-- Group-summing by the full key preserves every funding-source/year
restricted sum. -/
theorem sumFY_groupbyDFY (q : String → String → Bool) (t : Table) :
    sumFY q (groupbyDFY t) = sumFY q t := by
  have hks : ((t.map keyOf).dedup).Nodup := List.nodup_dedup _
  have hcov : ∀ r ∈ t, keyOf r ∈ (t.map keyOf).dedup := by
    intro r hr
    exact List.mem_dedup.mpr (List.mem_map_of_mem _ hr)
  have h := sum_fibers keyOf Row.amt (fun k => q k.2.1 k.2.2)
    ((t.map keyOf).dedup) hks t hcov
  calc sumFY q (groupbyDFY t)
      = ((((t.map keyOf).dedup).filter (fun k => q k.2.1 k.2.2)).map
          (fun k => ((t.filter (fun r => keyOf r = k)).map Row.amt).sum)).sum := by
        unfold sumFY groupbyDFY
        rw [List.filter_map, List.map_map]
        rfl
    _ = sumP keyOf Row.amt (fun k => q k.2.1 k.2.2) t := h
    _ = sumFY q t := rfl

/-- Aligned subtraction with `fill_value=0` subtracts every funding-source/
year restricted sum. -/
theorem sumFY_subtractFill (q : String → String → Bool) (a b : Table) :
    sumFY q (subtractFill a b) = sumFY q a - sumFY q b := by
  have hks : ((a.map keyOf ++ b.map keyOf).dedup).Nodup := List.nodup_dedup _
  have hcova : ∀ r ∈ a, keyOf r ∈ (a.map keyOf ++ b.map keyOf).dedup := by
    intro r hr
    exact List.mem_dedup.mpr (List.mem_append.mpr (Or.inl (List.mem_map_of_mem _ hr)))
  have hcovb : ∀ r ∈ b, keyOf r ∈ (a.map keyOf ++ b.map keyOf).dedup := by
    intro r hr
    exact List.mem_dedup.mpr (List.mem_append.mpr (Or.inr (List.mem_map_of_mem _ hr)))
  have ha := sum_fibers keyOf Row.amt (fun k => q k.2.1 k.2.2)
    ((a.map keyOf ++ b.map keyOf).dedup) hks a hcova
  have hb := sum_fibers keyOf Row.amt (fun k => q k.2.1 k.2.2)
    ((a.map keyOf ++ b.map keyOf).dedup) hks b hcovb
  calc sumFY q (subtractFill a b)
      = ((((a.map keyOf ++ b.map keyOf).dedup).filter (fun k => q k.2.1 k.2.2)).map
          (fun k => sumKey a k - sumKey b k)).sum := by
        unfold sumFY subtractFill
        rw [List.filter_map, List.map_map]
        rfl
    _ = sumFY q a - sumFY q b := by
        rw [sum_map_sub]
        exact congrArg₂ (· - ·) ha hb

/-- In a list whose images under `f` are duplicate-free, filtering for one
attained image value yields exactly the element attaining it. -/
theorem filter_map_eq_singleton {α β : Type} [DecidableEq β] (f : α → β) (a : β) :
    ∀ l : List α, (l.map f).Nodup → ∀ m ∈ l, f m = a →
      l.filter (fun x => f x = a) = [m] := by
  intro l
  induction l with
  | nil => intro _ m hm; cases hm
  | cons x xs ih =>
    intro hnd m hm hfa
    rw [List.map_cons, List.nodup_cons] at hnd
    by_cases hfx : f x = a
    · have htail : xs.filter (fun y => f y = a) = [] := by
        rw [List.filter_eq_nil_iff]
        intro y hy
        simp only [decide_eq_true_eq]
        intro hya
        exact hnd.1 (by rw [hfx, ← hya]; exact List.mem_map_of_mem f hy)
      have hmx : m = x := by
        rcases List.mem_cons.mp hm with h | h
        · exact h
        · exact absurd (by rw [hfx, ← hfa]; exact List.mem_map_of_mem f h) hnd.1
      subst hmx
      simp [List.filter_cons, hfx, htail]
    · have hmxs : m ∈ xs := by
        rcases List.mem_cons.mp hm with h | h
        · exact absurd (h ▸ hfa) hfx
        · exact h
      simp only [List.filter_cons, decide_eq_true_eq]
      rw [if_neg hfx]
      exact ih hnd.2 m hmxs hfa

theorem sumFY_cons (q : String → String → Bool) (x : Row) (t : Table) :
    sumFY q (x :: t) = (if q x.fs x.year then x.amt else 0) + sumFY q t := by
  cases h : q x.fs x.year <;> simp [sumFY, List.filter_cons, h]

/-- The rows kept by the direct-mapping left merge (one per input row, with
the mapped standardized name) carry the same funding-source/year restricted
sums as the input when every department is covered by exactly one rule. -/
theorem sumFY_directKept (q : String → String → Bool) (sm : List MapRow)
    (hsm : (sm.map (fun m => m.asReported)).Nodup) :
    ∀ t : Table, (∀ r ∈ t, ∃ m ∈ sm, m.asReported = r.dept) →
      sumFY q ((t.flatMap (fun r =>
          match directMatches sm r with
          | [] => [(r, none)]
          | ms => ms.map (fun m => (r, some (strUpper m.standardized))))).filterMap
            (fun p => p.2.map (fun s => (⟨s, p.1.fs, p.1.year, p.1.amt⟩ : Row))))
        = sumFY q t := by
  intro t
  induction t with
  | nil => intro _; rfl
  | cons r rest ih =>
    intro hcov
    rcases hcov r (by simp) with ⟨m, hm, hma⟩
    have hsingle : directMatches sm r = [m] := by
      have h := filter_map_eq_singleton (fun x : MapRow => x.asReported) r.dept sm hsm m hm hma
      simpa [directMatches] using h
    rw [List.flatMap_cons, hsingle, List.filterMap_append]
    show sumFY q ((⟨strUpper m.standardized, r.fs, r.year, r.amt⟩ : Row)
        :: (List.filterMap _ _)) = _
    rw [sumFY_cons, sumFY_cons]
    have := ih (fun x hx => hcov x (by simp [hx]))
    rw [this]

/-- The direct-mapping pass preserves every funding-source/year restricted
sum when every department of the input is covered by exactly one direct
rule of the state. -/
theorem sumFY_direct (q : String → String → Bool) (cat : List MapRow) (st : String)
    (hcat : ((cat.filter (fun m => m.state = st)).map (fun m => m.asReported)).Nodup) :
    ∀ t : Table,
      (∀ r ∈ t, ∃ m ∈ cat.filter (fun m => m.state = st), m.asReported = r.dept) →
      sumFY q (standardize_budget_from_direct_mapping t cat st).1 = sumFY q t := by
  intro t hcov
  show sumFY q (groupbyDFY _) = sumFY q t
  rw [sumFY_groupbyDFY]
  exact sumFY_directKept q (cat.filter (fun m => m.state = st)) hcat t hcov

theorem sumFY_flatMap_congr (q1 q2 : String → String → Bool) (f g : Row → List Row)
    (h : ∀ r : Row, ((f r).filter (fun x => q1 x.fs x.year)).map Row.amt
        = ((g r).filter (fun x => q2 x.fs x.year)).map Row.amt) :
    ∀ df : Table, sumFY q1 (df.flatMap f) = sumFY q2 (df.flatMap g) := by
  intro df
  induction df with
  | nil => rfl
  | cons r rest ih =>
    rw [List.flatMap_cons, List.flatMap_cons, sumFY_append, sumFY_append, ih]
    congr 1
    exact congrArg List.sum (h r)

/-- The sub-department standardized rows and the rows claimed by the
sub-department tier are generated in lockstep from the same matches, so the
department-total/year restricted sum of the former equals the unrestricted
per-year sum of the latter. -/
theorem sumFY_S_eq_T2 (q : String → String → Bool) (sm : List SubMapRow) (df : Table) :
    sumFY q (df.flatMap (fun r => (subMatches sm r).map
        (fun m => (⟨strUpper m.standardized, DEPT_TOTAL, r.year, r.amt⟩ : Row))))
      = sumFY (fun _ yr => q DEPT_TOTAL yr)
          (df.flatMap (fun r => (subMatches sm r).map (fun _ => r))) := by
  apply sumFY_flatMap_congr
  intro r
  rw [List.filter_map, List.filter_map, List.map_map, List.map_map]
  rfl

/-- Rolling the claimed rows up per department under a synthetic
`DEPARTMENT TOTAL` funding source preserves restricted sums, with the
funding source read as `DEPARTMENT TOTAL`. -/
theorem sumFY_rollup (q : String → String → Bool) (t2 : Table) :
    sumFY q (((t2.map (fun r => (r.dept, r.year))).dedup).map
        (fun k => (⟨k.1, DEPT_TOTAL, k.2, sumDY t2 k⟩ : Row)))
      = sumFY (fun _ yr => q DEPT_TOTAL yr) t2 := by
  have hks : ((t2.map (fun r => (r.dept, r.year))).dedup).Nodup := List.nodup_dedup _
  have hcov : ∀ r ∈ t2, (r.dept, r.year) ∈ (t2.map (fun r => (r.dept, r.year))).dedup :=
    fun r hr => List.mem_dedup.mpr (List.mem_map_of_mem _ hr)
  have h := sum_fibers (fun r : Row => (r.dept, r.year)) Row.amt
      (fun k => q DEPT_TOTAL k.2) _ hks t2 hcov
  calc sumFY q (((t2.map (fun r => (r.dept, r.year))).dedup).map
          (fun k => (⟨k.1, DEPT_TOTAL, k.2, sumDY t2 k⟩ : Row)))
      = ((((t2.map (fun r => (r.dept, r.year))).dedup).filter
            (fun k => q DEPT_TOTAL k.2)).map (fun k => sumDY t2 k)).sum := by
        unfold sumFY
        rw [List.filter_map, List.map_map]
        rfl
    _ = sumP (fun r : Row => (r.dept, r.year)) Row.amt (fun k => q DEPT_TOTAL k.2) t2 := h
    _ = sumFY (fun _ yr => q DEPT_TOTAL yr) t2 := rfl

theorem sumFY_map_const {α : Type} (q : String → String → Bool) (r : Row) (l : List α) :
    sumFY q (l.map (fun _ => r)) = if q r.fs r.year then (l.length : ℚ) * r.amt else 0 := by
  induction l with
  | nil => cases h : q r.fs r.year <;> simp [sumFY, h]
  | cons x xs ih =>
    rw [List.map_cons, sumFY_cons, ih]
    cases h : q r.fs r.year
    · simp [h]
    · simp [h]
      ring

/-- No dollars of the claimed line items themselves sit in a
`DEPARTMENT TOTAL` slot when no sub-department rule matches a department
total row. -/
theorem sumFY_T2_zero (y : String) (sm : List SubMapRow)
    (hno : ∀ m ∈ sm, m.fs ≠ DEPT_TOTAL) :
    ∀ df : Table,
      sumFY (fun fs yr => fs = DEPT_TOTAL && yr = y)
        (df.flatMap (fun r => (subMatches sm r).map (fun _ => r))) = 0 := by
  intro df
  induction df with
  | nil => rfl
  | cons r rest ih =>
    rw [List.flatMap_cons, sumFY_append, ih, add_zero, sumFY_map_const]
    rcases hsm : subMatches sm r with _ | ⟨m, ms⟩
    · simp [hsm]
    · have hm : m ∈ subMatches sm r := by rw [hsm]; exact List.mem_cons_self m ms
      rcases List.mem_filter.mp hm with ⟨hmem, hcond⟩
      have hfs : m.fs = r.fs := of_decide_eq_true ((Bool.and_eq_true _ _).mp hcond).2
      have hne : ¬ (r.fs = DEPT_TOTAL) := by rw [← hfs]; exact hno m hmem
      simp [hne]

/-- Every department appearing in the double-count-corrected remainder
already appears in the raw table. -/
theorem remaining_dept_mem (df : Table) (sub : List SubMapRow) (st : String) :
    ∀ r' ∈ subtractFill df (identify_double_counted_departments df sub st),
      ∃ r ∈ df, r.dept = r'.dept := by
  intro r' hr'
  unfold subtractFill at hr'
  rcases List.mem_map.mp hr' with ⟨k, hk, rfl⟩
  rcases List.mem_append.mp (List.mem_dedup.mp hk) with h | h
  · rcases List.mem_map.mp h with ⟨r, hr, rfl⟩
    exact ⟨r, hr, rfl⟩
  · rcases List.mem_map.mp h with ⟨r2, hr2, rfl⟩
    unfold identify_double_counted_departments at hr2
    rcases List.mem_append.mp hr2 with h2 | h2
    · rcases List.mem_map.mp h2 with ⟨k2, hk2, rfl⟩
      rcases List.mem_map.mp (List.mem_dedup.mp hk2) with ⟨r3, hr3, rfl⟩
      rcases List.mem_flatMap.mp hr3 with ⟨r, hr, hmap⟩
      rcases List.mem_map.mp hmap with ⟨_, _, rfl⟩
      exact ⟨r, hr, rfl⟩
    · rcases List.mem_flatMap.mp h2 with ⟨r, hr, hmap⟩
      rcases List.mem_map.mp hmap with ⟨_, _, rfl⟩
      exact ⟨r, hr, rfl⟩

/-- The sum, over the standardized departments, of the `DEPARTMENT TOTAL`
amounts of a given year. -/
def deptTotalSum (t : Table) (y : String) : ℚ :=
  sumFY (fun fs yr => fs = DEPT_TOTAL && yr = y) t

/-- C1.  Conservation of totals: for any jurisdiction and year, the sum over
all departments of the `DEPARTMENT TOTAL` amounts in the standardized table
produced by `standardize_budget` equals the sum of the original line-item
department-total amounts — the double-count resolver and standardizer
neither drop nor duplicate dollars across the direct and sub-department
paths.  Hypotheses: every department of the table has a direct rule of the
state; the state's direct rules name each as-reported department at most
once and its sub-department rules each `(department, funding source)` pair
at most once, and the raw keys are unique (otherwise the pandas merges
duplicate rows or `subtract` is undefined on a duplicated index); no
sub-department rule targets a `DEPARTMENT TOTAL` row itself. -/
theorem conservation_of_totals (df : Table) (cat : List MapRow) (sub : List SubMapRow)
    (st y : String)
    (hmapped : ∀ r ∈ df, ∃ m ∈ cat, m.state = st ∧ m.asReported = r.dept)
    (hcat : ((cat.filter (fun m => m.state = st)).map (fun m => m.asReported)).Nodup)
    (_hsub : ((sub.filter (fun m => m.state = st)).map (fun m => (m.asReported, m.fs))).Nodup)
    (_hdf : (df.map keyOf).Nodup)
    (hnoTot : ∀ m ∈ sub, m.state = st → m.fs ≠ DEPT_TOTAL) :
    deptTotalSum (standardize_budget df cat sub st).1 y = deptTotalSum df y := by
  have hcovRem : ∀ r' ∈ subtractFill df (identify_double_counted_departments df sub st),
      ∃ m ∈ cat.filter (fun m => m.state = st), m.asReported = r'.dept := by
    intro r' hr'
    rcases remaining_dept_mem df sub st r' hr' with ⟨r, hr, hdept⟩
    rcases hmapped r hr with ⟨m, hm, hms, hma⟩
    exact ⟨m, List.mem_filter.mpr ⟨hm, by simp [hms]⟩, by rw [hma, hdept]⟩
  have hnoTot' : ∀ m ∈ sub.filter (fun m => m.state = st), m.fs ≠ DEPT_TOTAL := by
    intro m hm
    rcases List.mem_filter.mp hm with ⟨h1, h2⟩
    exact hnoTot m h1 (of_decide_eq_true h2)
  have hT2 : sumFY (fun fs yr => fs = DEPT_TOTAL && yr = y)
      (df.flatMap (fun r =>
        (subMatches (sub.filter (fun m => m.state = st)) r).map (fun _ => r))) = 0 :=
    sumFY_T2_zero y _ hnoTot' df
  unfold deptTotalSum
  show sumFY _ (groupbyDFY ((standardize_budget_from_direct_mapping
      (subtractFill df (identify_double_counted_departments df sub st)) cat st).1
      ++ standardize_budget_from_sub_departments df sub st)) = _
  rw [sumFY_groupbyDFY, sumFY_append,
    sumFY_direct _ cat st hcat _ hcovRem, sumFY_subtractFill]
  show sumFY _ df - sumFY _
      (((((df.flatMap (fun r =>
          (subMatches (sub.filter (fun m => m.state = st)) r).map (fun _ => r))).map
            (fun r => (r.dept, r.year))).dedup).map
          (fun k => (⟨k.1, DEPT_TOTAL, k.2,
            sumDY (df.flatMap (fun r =>
              (subMatches (sub.filter (fun m => m.state = st)) r).map (fun _ => r))) k⟩ : Row)))
        ++ df.flatMap (fun r =>
          (subMatches (sub.filter (fun m => m.state = st)) r).map (fun _ => r)))
      + sumFY _ (groupbyDFY (df.flatMap (fun r =>
          (subMatches (sub.filter (fun m => m.state = st)) r).map
            (fun m => (⟨strUpper m.standardized, DEPT_TOTAL, r.year, r.amt⟩ : Row))))) = _
  rw [sumFY_append, sumFY_rollup, sumFY_groupbyDFY, sumFY_S_eq_T2, hT2]
  ring

/-- C2.  Double-count resolution: with a direct rule `B → X` and a
sub-department rule `(B, GRANTS) → Y`, raw rows `B/DEPARTMENT TOTAL = t`
and `B/GRANTS = a` standardize to `Y/DEPARTMENT TOTAL = a` and
`X/DEPARTMENT TOTAL = t - a` (not `t`): the sub-department path is computed
and subtracted from the raw pool before the direct path runs on the
remainder. -/
theorem double_count_resolution (t a : ℚ) :
    lookupAmt3 (standardize_budget
        [⟨"B", "DEPARTMENT TOTAL", "2025", t⟩, ⟨"B", "GRANTS", "2025", a⟩]
        [⟨"Maine", "B", "X"⟩] [⟨"Maine", "B", "GRANTS", "Y"⟩] "Maine").1
      "Y" "DEPARTMENT TOTAL" "2025" = some a
    ∧ lookupAmt3 (standardize_budget
        [⟨"B", "DEPARTMENT TOTAL", "2025", t⟩, ⟨"B", "GRANTS", "2025", a⟩]
        [⟨"Maine", "B", "X"⟩] [⟨"Maine", "B", "GRANTS", "Y"⟩] "Maine").1
      "X" "DEPARTMENT TOTAL" "2025" = some (t - a) := by
  constructor <;>
  · simp [standardize_budget, standardize_budget_from_sub_departments,
      standardize_budget_from_direct_mapping, identify_double_counted_departments,
      subtractFill, groupbyDFY, subMatches, directMatches, lookupAmt3, sumKey, sumDY,
      Row.keyOf, DEPT_TOTAL, strUpper]

/-- C10.  Sub-department path funding-source invariant: every row returned
by `standardize_budget_from_sub_departments` carries the funding source
`DEPARTMENT TOTAL` — sub-mapped slices enter the standardized output only
as department-total rows, never under their original funding-source label,
for every input table and sub-department mapping. -/
theorem sub_department_rows_are_department_totals (df : Table) (sub : List SubMapRow)
    (st : String) :
    ∀ r ∈ standardize_budget_from_sub_departments df sub st, r.fs = DEPT_TOTAL := by
  intro r hr
  unfold standardize_budget_from_sub_departments groupbyDFY at hr
  rcases List.mem_map.mp hr with ⟨k, hk, rfl⟩
  rcases List.mem_map.mp (List.mem_dedup.mp hk) with ⟨x, hx, rfl⟩
  rcases List.mem_flatMap.mp hx with ⟨r0, _, hmap⟩
  rcases List.mem_map.mp hmap with ⟨m, _, rfl⟩
  rfl

theorem sub_department_rows_witness :
    (⟨"Y", "DEPARTMENT TOTAL", "2025", (80 : ℚ)⟩ : Row).fs = DEPT_TOTAL :=
  sub_department_rows_are_department_totals
    [⟨"B", "GRANTS", "2025", 80⟩] [⟨"Maine", "B", "GRANTS", "Y"⟩] "Maine" _
    (by simp [standardize_budget_from_sub_departments, groupbyDFY, subMatches,
      sumKey, Row.keyOf, DEPT_TOTAL, strUpper])

/-- C6 counterexample: department `B` is covered by a sub-department rule
`(B, GRANTS) → Y` and by no direct rule; the claim says such a name is not
reported, but `standardize_budget` reports `B` as unmapped (the direct pass
runs on the remainder table, which still holds `B`'s keys). -/
theorem sub_only_department_still_reported :
    "B" ∈ (standardize_budget [⟨"B", "GRANTS", "2025", 80⟩]
      [] [⟨"Maine", "B", "GRANTS", "Y"⟩] "Maine").2 := by
  simp [standardize_budget, standardize_budget_from_direct_mapping,
    identify_double_counted_departments, subtractFill, subMatches, directMatches,
    Row.keyOf, DEPT_TOTAL, sumDY]

/-- C6 (amended).  Mapping completeness reporting: for every row of the
table, if its department has no direct-tier rule for the jurisdiction it is
reported as unmapped — regardless of sub-department-tier coverage — and if
it has a direct-tier rule it is not reported. -/
theorem unmapped_reporting (df : Table) (cat : List MapRow) (sub : List SubMapRow)
    (st : String) (r : Row) (hr : r ∈ df) :
    ((¬ ∃ m ∈ cat, m.state = st ∧ m.asReported = r.dept) →
      r.dept ∈ (standardize_budget df cat sub st).2)
    ∧ ((∃ m ∈ cat, m.state = st ∧ m.asReported = r.dept) →
      r.dept ∉ (standardize_budget df cat sub st).2) := by
  have hrem : ∃ x ∈ subtractFill df (identify_double_counted_departments df sub st),
      x.dept = r.dept := by
    refine ⟨⟨r.dept, r.fs, r.year, _⟩, List.mem_map.mpr ⟨keyOf r, ?_, rfl⟩, rfl⟩
    exact List.mem_dedup.mpr (List.mem_append.mpr
      (Or.inl (List.mem_map_of_mem _ hr)))
  constructor
  · intro hno
    rcases hrem with ⟨x, hx, hxd⟩
    have hnomatch : directMatches (cat.filter (fun m => m.state = st)) x = [] := by
      unfold directMatches
      rw [List.filter_eq_nil_iff]
      intro m hm
      simp only [decide_eq_true_eq]
      intro hma
      rcases List.mem_filter.mp hm with ⟨h1, h2⟩
      exact hno ⟨m, h1, of_decide_eq_true h2, by rw [hma, hxd]⟩
    show r.dept ∈ (standardize_budget_from_direct_mapping
      (subtractFill df (identify_double_counted_departments df sub st)) cat st).2
    unfold standardize_budget_from_direct_mapping
    refine List.mem_dedup.mpr (List.mem_map.mpr ⟨(x, none), List.mem_filter.mpr ⟨?_, by simp⟩, hxd⟩)
    refine List.mem_flatMap.mpr ⟨x, hx, ?_⟩
    rw [hnomatch]
    exact List.mem_singleton.mpr rfl
  · rintro ⟨m, hm, hms, hma⟩ hmem
    have hmem' : r.dept ∈ (standardize_budget_from_direct_mapping
        (subtractFill df (identify_double_counted_departments df sub st)) cat st).2 := hmem
    unfold standardize_budget_from_direct_mapping at hmem'
    rcases List.mem_map.mp (List.mem_dedup.mp hmem') with ⟨p, hp, hpd⟩
    rcases List.mem_filter.mp hp with ⟨hpmem, hpnone⟩
    have hpnone' : p.2 = none := of_decide_eq_true hpnone
    rcases List.mem_flatMap.mp hpmem with ⟨x, _, hpx⟩
    rcases hdm : directMatches (cat.filter (fun m => m.state = st)) x with _ | ⟨m0, ms⟩
    · rw [hdm] at hpx
      rcases List.mem_singleton.mp hpx with rfl
      have : m ∈ directMatches (cat.filter (fun m => m.state = st)) x := by
        apply List.mem_filter.mpr
        refine ⟨List.mem_filter.mpr ⟨hm, by simp [hms]⟩, ?_⟩
        simp only [decide_eq_true_eq]
        rw [hma, ← hpd]
      rw [hdm] at this
      cases this
    · rw [hdm] at hpx
      rcases List.mem_map.mp hpx with ⟨m1, _, hpeq⟩
      rw [← hpeq] at hpnone'
      cases hpnone'

theorem unmapped_reporting_witness :
    "B" ∈ (standardize_budget [⟨"B", "GRANTS", "2025", (80 : ℚ)⟩]
      [⟨"Maine", "C", "X"⟩] [⟨"Maine", "B", "GRANTS", "Y"⟩] "Maine").2 :=
  (unmapped_reporting [⟨"B", "GRANTS", "2025", 80⟩] [⟨"Maine", "C", "X"⟩]
    [⟨"Maine", "B", "GRANTS", "Y"⟩] "Maine" ⟨"B", "GRANTS", "2025", 80⟩
    (by simp)).1 (by rintro ⟨m, hm, _, hma⟩; simp at hm; subst hm; simp at hma)

/-! ### Comparator infrastructure lemmas -/

theorem mem_insertBy {α : Type} (le : α → α → Bool) (x a : α) :
    ∀ l : List α, (a ∈ insertBy le x l ↔ a = x ∨ a ∈ l) := by
  intro l
  induction l with
  | nil => simp [insertBy]
  | cons y ys ih =>
    unfold insertBy
    by_cases h : le x y
    · simp [h]
    · simp only [h]
      simp [List.mem_cons, ih]
      tauto

theorem mem_sortBy {α : Type} (le : α → α → Bool) (a : α) :
    ∀ l : List α, (a ∈ sortBy le l ↔ a ∈ l) := by
  intro l
  induction l with
  | nil => exact Iff.rfl
  | cons x xs ih =>
    unfold sortBy
    rw [mem_insertBy]
    simp [ih]

/-- Scaling to millions and rounding commutes with cell lookup. -/
theorem lookupAmt3_scaleRound (t : Table) (d fs y : String) :
    lookupAmt3 (scaleRound t) d fs y
      = (lookupAmt3 t d fs y).map (fun q => ((roundHalfEven (q / 1000000) : ℤ) : ℚ)) := by
  unfold lookupAmt3 scaleRound
  rw [List.find?_map]
  have hp : ((fun r : Row => r.dept = d && r.fs = fs && r.year = y) ∘
      (fun r : Row => (⟨r.dept, r.fs, r.year,
        ((roundHalfEven (r.amt / 1000000) : ℤ) : ℚ)⟩ : Row)))
      = (fun r : Row => r.dept = d && r.fs = fs && r.year = y) := rfl
  rw [hp]
  cases hf : t.find? (fun r => r.dept = d && r.fs = fs && r.year = y) <;> rfl

theorem lookupCell_scaleRound (t : Table) (d fs y : String) (q : ℚ)
    (h : lookupAmt3 t d fs y = some q) :
    lookupCell (scaleRound t) d fs y = FVal.num ((roundHalfEven (q / 1000000) : ℤ) : ℚ) := by
  unfold lookupCell
  rw [lookupAmt3_scaleRound, h]
  rfl

theorem lookupCell_none (t : Table) (d fs y : String)
    (h : ∀ r ∈ t, r.dept ≠ d) : lookupCell t d fs y = FVal.nan := by
  unfold lookupCell lookupAmt3
  rw [List.find?_eq_none.mpr]
  · rfl
  · intro r hr
    simp only [Bool.and_eq_true, decide_eq_true_eq, not_and]
    intro hd _
    exact absurd hd.1 (h r hr)

/-- C7.  Point-in-time comparison zero-fill: for a given year,
`create_state_comparison` carries, per standardized department present in
either table, each jurisdiction's `DEPARTMENT TOTAL` amount for that year,
and a department present in one jurisdiction with amount `q` but absent
entirely from the other jurisdiction's table yields the record `(d, q, 0)`
— zero, not missing. -/
theorem point_in_time_zero_fill (me nh : Table) (y d : String) (q : ℚ)
    (hme : lookupAmt3 me d DEPT_TOTAL y = some q)
    (hnh : ∀ r ∈ nh, r.dept ≠ d)
    (hnhTot : nh.any (fun r => r.fs = DEPT_TOTAL) = true)
    (hnhY : nh.any (fun r => r.year = y) = true) :
    ∃ out, create_state_comparison y me nh = Except.ok out ∧ (d, q, 0) ∈ out := by
  have hfind : ∃ r0, me.find? (fun r => r.dept = d && r.fs = DEPT_TOTAL && r.year = y)
      = some r0 ∧ r0.amt = q := by
    unfold lookupAmt3 at hme
    cases hf : me.find? (fun r => r.dept = d && r.fs = DEPT_TOTAL && r.year = y) with
    | none => rw [hf] at hme; cases hme
    | some r0 => rw [hf] at hme; exact ⟨r0, rfl, by simpa using hme⟩
  rcases hfind with ⟨r0, hf, hamt⟩
  have hr0mem : r0 ∈ me := List.mem_of_find?_eq_some hf
  have hr0p := List.find?_some hf
  rw [Bool.and_eq_true, Bool.and_eq_true] at hr0p
  have hr0d : r0.dept = d := of_decide_eq_true hr0p.1.1
  have hr0fs : r0.fs = DEPT_TOTAL := of_decide_eq_true hr0p.1.2
  have hr0y : r0.year = y := of_decide_eq_true hr0p.2
  have hmeTot : me.any (fun r => r.fs = DEPT_TOTAL) = true :=
    List.any_eq_true.mpr ⟨r0, hr0mem, by simp [hr0fs]⟩
  have hmeY : me.any (fun r => r.year = y) = true :=
    List.any_eq_true.mpr ⟨r0, hr0mem, by simp [hr0y]⟩
  have hcond : (me.any (fun r => r.fs = DEPT_TOTAL) && nh.any (fun r => r.fs = DEPT_TOTAL)
      && me.any (fun r => r.year = y) && nh.any (fun r => r.year = y)) = true := by
    rw [hmeTot, hnhTot, hmeY, hnhY]
    rfl
  unfold create_state_comparison
  rw [if_pos hcond]
  refine ⟨_, rfl, ?_⟩
  have hd : d ∈ ((me.filter (fun r => r.fs = DEPT_TOTAL)).map Row.dept
      ++ (nh.filter (fun r => r.fs = DEPT_TOTAL)).map Row.dept).dedup := by
    apply List.mem_dedup.mpr
    apply List.mem_append.mpr
    exact Or.inl (List.mem_map.mpr
      ⟨r0, List.mem_filter.mpr ⟨hr0mem, by simp [hr0fs]⟩, hr0d⟩)
  refine List.mem_map.mpr ⟨d, hd, ?_⟩
  have hnhnone : lookupAmt3 nh d DEPT_TOTAL y = none := by
    unfold lookupAmt3
    rw [List.find?_eq_none.mpr]
    · rfl
    · intro r hrm
      simp only [Bool.and_eq_true, decide_eq_true_eq, not_and]
      intro hrd _
      exact absurd hrd.1 (hnh r hrm)
  simp [lookupCell, hme, hnhnone, FVal.fillna0]

theorem point_in_time_zero_fill_witness :
    ∃ out, create_state_comparison "2025"
        [⟨"Z", "DEPARTMENT TOTAL", "2025", (50 : ℚ)⟩]
        [⟨"W", "DEPARTMENT TOTAL", "2025", (10 : ℚ)⟩] = Except.ok out
      ∧ ("Z", (50 : ℚ), (0 : ℚ)) ∈ out :=
  point_in_time_zero_fill _ _ "2025" "Z" 50
    (by simp [lookupAmt3, DEPT_TOTAL])
    (by intro r hr; simp at hr; subst hr; simp)
    (by simp [DEPT_TOTAL]) (by simp)

/-- C3 counterexample: `create_state_comparison_through_time` does not
preserve unscaled precision: with an input ME `DEPARTMENT TOTAL` of 500 in
both years, no output level column holds 500 — the core divides by
`Config.DEPARTMENT_SCALE` (1e6) and rounds before comparing. -/
theorem through_time_levels_scaled_counterexample :
    ∃ out, create_state_comparison_through_time
        [⟨"Z", "DEPARTMENT TOTAL", "2018", 500⟩, ⟨"Z", "DEPARTMENT TOTAL", "2025", 500⟩]
        [⟨"Z", "DEPARTMENT TOTAL", "2018", 100⟩, ⟨"Z", "DEPARTMENT TOTAL", "2025", 100⟩]
        "2018" "2025" = Except.ok out
      ∧ (∃ row ∈ out, row.dept = "Z")
      ∧ ∀ row ∈ out, row.meEnd ≠ FVal.num 500 ∧ row.meStart ≠ FVal.num 500 := by
  have hy1 : (decide (("2018" : String) = "2025")) = false := rfl
  have hy2 : (decide (("2025" : String) = "2018")) = false := rfl
  have h500 : roundHalfEven ((1 : ℚ) / 2000) = 0 := by
    norm_num [roundHalfEven]
  have h100 : roundHalfEven ((1 : ℚ) / 10000) = 0 := by
    norm_num [roundHalfEven]
  norm_num [create_state_comparison_through_time, scaleRound, h500, h100, lookupCell,
    lookupAmt3, DEPT_TOTAL, throughTimeRow, CompRow.replaceInfRow, sortBy, insertBy,
    FVal.sortBefore, FVal.fsub, FVal.fdiv, FVal.fmul, FVal.replaceInf, List.find?, hy1, hy2]

/-- C3 (amended).  The through-time comparison is produced at
`DEPARTMENT_SCALE`: for every department present in the ME table, the
output end-year and start-year level columns equal the input amounts
divided by 1e6 and rounded half-to-even (not the unscaled amounts —
scaling and rounding happen inside `create_state_comparison_through_time`
itself). -/
theorem through_time_levels (me nh : Table) (ys ye d : String) (qe qs : ℚ)
    (hye : lookupAmt3 me d DEPT_TOTAL ye = some qe)
    (hys : lookupAmt3 me d DEPT_TOTAL ys = some qs)
    (hnhTot : nh.any (fun r => r.fs = DEPT_TOTAL) = true)
    (hnhE : nh.any (fun r => r.year = ye) = true)
    (hnhS : nh.any (fun r => r.year = ys) = true) :
    ∃ out, create_state_comparison_through_time me nh ys ye = Except.ok out
      ∧ (∃ row ∈ out, row.dept = d)
      ∧ ∀ row ∈ out, row.dept = d →
          row.meEnd = FVal.num ((roundHalfEven (qe / 1000000) : ℤ) : ℚ)
          ∧ row.meStart = FVal.num ((roundHalfEven (qs / 1000000) : ℤ) : ℚ) := by
  have hfind : ∃ r0, me.find? (fun r => r.dept = d && r.fs = DEPT_TOTAL && r.year = ye)
      = some r0 ∧ r0.amt = qe := by
    unfold lookupAmt3 at hye
    cases hf : me.find? (fun r => r.dept = d && r.fs = DEPT_TOTAL && r.year = ye) with
    | none => rw [hf] at hye; cases hye
    | some r0 => rw [hf] at hye; exact ⟨r0, rfl, by simpa using hye⟩
  rcases hfind with ⟨r0, hf, _⟩
  have hr0mem : r0 ∈ me := List.mem_of_find?_eq_some hf
  have hr0p := List.find?_some hf
  rw [Bool.and_eq_true, Bool.and_eq_true] at hr0p
  have hr0d : r0.dept = d := of_decide_eq_true hr0p.1.1
  have hr0fs : r0.fs = DEPT_TOTAL := of_decide_eq_true hr0p.1.2
  have hr0ye : r0.year = ye := of_decide_eq_true hr0p.2
  -- the start-year row of ME
  have hfindS : ∃ r1, me.find? (fun r => r.dept = d && r.fs = DEPT_TOTAL && r.year = ys)
      = some r1 ∧ r1.amt = qs := by
    unfold lookupAmt3 at hys
    cases hf1 : me.find? (fun r => r.dept = d && r.fs = DEPT_TOTAL && r.year = ys) with
    | none => rw [hf1] at hys; cases hys
    | some r1 => rw [hf1] at hys; exact ⟨r1, rfl, by simpa using hys⟩
  rcases hfindS with ⟨r1, hf1, _⟩
  have hr1mem : r1 ∈ me := List.mem_of_find?_eq_some hf1
  have hr1p := List.find?_some hf1
  rw [Bool.and_eq_true, Bool.and_eq_true] at hr1p
  have hr1ys : r1.year = ys := of_decide_eq_true hr1p.2
  have hmeTot : (scaleRound me).any (fun r => r.fs = DEPT_TOTAL) = true := by
    rw [scaleRound, List.any_map]
    exact List.any_eq_true.mpr ⟨r0, hr0mem, by simp [hr0fs]⟩
  have hmeE : (scaleRound me).any (fun r => r.year = ye) = true := by
    rw [scaleRound, List.any_map]
    exact List.any_eq_true.mpr ⟨r0, hr0mem, by simp [hr0ye]⟩
  have hmeS : (scaleRound me).any (fun r => r.year = ys) = true := by
    rw [scaleRound, List.any_map]
    exact List.any_eq_true.mpr ⟨r1, hr1mem, by simp [hr1ys]⟩
  have hnhTot' : (scaleRound nh).any (fun r => r.fs = DEPT_TOTAL) = true := by
    rw [scaleRound, List.any_map]
    exact hnhTot
  have hnhE' : (scaleRound nh).any (fun r => r.year = ye) = true := by
    rw [scaleRound, List.any_map]
    exact hnhE
  have hnhS' : (scaleRound nh).any (fun r => r.year = ys) = true := by
    rw [scaleRound, List.any_map]
    exact hnhS
  have hcond : ((scaleRound me).any (fun r => r.fs = DEPT_TOTAL)
      && (scaleRound nh).any (fun r => r.fs = DEPT_TOTAL)
      && (scaleRound me).any (fun r => r.year = ye)
      && (scaleRound nh).any (fun r => r.year = ye)
      && (scaleRound me).any (fun r => r.year = ys)
      && (scaleRound nh).any (fun r => r.year = ys)) = true := by
    rw [hmeTot, hnhTot', hmeE, hnhE', hmeS, hnhS']
    rfl
  have hd : d ∈ (((scaleRound me).filter (fun r => r.fs = DEPT_TOTAL)).map Row.dept
      ++ ((scaleRound nh).filter (fun r => r.fs = DEPT_TOTAL)).map Row.dept).dedup := by
    apply List.mem_dedup.mpr
    apply List.mem_append.mpr
    refine Or.inl (List.mem_map.mpr ⟨⟨r0.dept, r0.fs, r0.year,
      ((roundHalfEven (r0.amt / 1000000) : ℤ) : ℚ)⟩, List.mem_filter.mpr ⟨?_, by simp [hr0fs]⟩, hr0d⟩)
    exact List.mem_map.mpr ⟨r0, hr0mem, rfl⟩
  have hcellE : lookupCell (scaleRound me) d DEPT_TOTAL ye
      = FVal.num ((roundHalfEven (qe / 1000000) : ℤ) : ℚ) :=
    lookupCell_scaleRound me d DEPT_TOTAL ye qe hye
  have hcellS : lookupCell (scaleRound me) d DEPT_TOTAL ys
      = FVal.num ((roundHalfEven (qs / 1000000) : ℤ) : ℚ) :=
    lookupCell_scaleRound me d DEPT_TOTAL ys qs hys
  simp only [create_state_comparison_through_time]
  rw [if_pos hcond]
  refine ⟨_, rfl, ?_, ?_⟩
  · refine ⟨(throughTimeRow (scaleRound me) (scaleRound nh) ys ye d).replaceInfRow,
      List.mem_map.mpr ⟨throughTimeRow (scaleRound me) (scaleRound nh) ys ye d,
        (mem_sortBy _ _ _).mpr (List.mem_map.mpr ⟨d, hd, rfl⟩), rfl⟩, rfl⟩
  · intro row hrow hrowd
    rcases List.mem_map.mp hrow with ⟨r2, hr2, rfl⟩
    rcases List.mem_map.mp ((mem_sortBy _ _ _).mp hr2) with ⟨d2, _, rfl⟩
    have hd2 : d2 = d := hrowd
    subst hd2
    constructor
    · show (throughTimeRow (scaleRound me) (scaleRound nh) ys ye d2).meEnd.replaceInf = _
      rw [show (throughTimeRow (scaleRound me) (scaleRound nh) ys ye d2).meEnd
          = lookupCell (scaleRound me) d2 DEPT_TOTAL ye from rfl, hcellE]
      rfl
    · show (throughTimeRow (scaleRound me) (scaleRound nh) ys ye d2).meStart.replaceInf = _
      rw [show (throughTimeRow (scaleRound me) (scaleRound nh) ys ye d2).meStart
          = lookupCell (scaleRound me) d2 DEPT_TOTAL ys from rfl, hcellS]
      rfl

theorem through_time_levels_witness :
    ∃ out, create_state_comparison_through_time
        [⟨"Z", "DEPARTMENT TOTAL", "2018", (500 : ℚ)⟩, ⟨"Z", "DEPARTMENT TOTAL", "2025", 500⟩]
        [⟨"Z", "DEPARTMENT TOTAL", "2018", (100 : ℚ)⟩, ⟨"Z", "DEPARTMENT TOTAL", "2025", 100⟩]
        "2018" "2025" = Except.ok out
      ∧ (∃ row ∈ out, row.dept = "Z")
      ∧ ∀ row ∈ out, row.dept = "Z" →
          row.meEnd = FVal.num ((roundHalfEven ((500 : ℚ) / 1000000) : ℤ) : ℚ)
          ∧ row.meStart = FVal.num ((roundHalfEven ((500 : ℚ) / 1000000) : ℤ) : ℚ) :=
  through_time_levels _ _ "2018" "2025" "Z" 500 500
    (by simp [lookupAmt3, DEPT_TOTAL])
    (by simp [lookupAmt3, DEPT_TOTAL])
    (by simp [DEPT_TOTAL]) (by simp) (by simp)

/-- C5.  Through-time percentage-change sentinel: in the output of
`create_state_comparison_through_time`, a department whose start-year level
is exactly 0 and whose end-year level is positive gets the non-numeric
sentinel NaN as percentage change, not infinity; and more generally no
`+inf` or `-inf` arising from any of the divisions survives into any cell
of the returned comparison table. -/
theorem perc_change_sentinel :
    (∀ (me nh : Table) (ys ye d : String) (e : ℚ) (out : List CompRow),
      create_state_comparison_through_time me nh ys ye = Except.ok out →
      lookupCell (scaleRound me) d DEPT_TOTAL ys = FVal.num 0 →
      lookupCell (scaleRound me) d DEPT_TOTAL ye = FVal.num e → 0 < e →
      ∀ row ∈ out, row.dept = d → row.mePerc = FVal.nan)
    ∧ (∀ (me nh : Table) (ys ye : String) (out : List CompRow),
      create_state_comparison_through_time me nh ys ye = Except.ok out →
      ∀ row ∈ out, ∀ c ∈ row.cells, c.isInf = false) := by
  constructor
  · intro me nh ys ye d e out hout h0 he hpos row hrow hrowd
    simp only [create_state_comparison_through_time] at hout
    split at hout
    · rw [Except.ok.injEq] at hout
      subst hout
      rcases List.mem_map.mp hrow with ⟨r2, hr2, rfl⟩
      rcases List.mem_map.mp ((mem_sortBy _ _ _).mp hr2) with ⟨d2, _, rfl⟩
      have hd2 : d2 = d := hrowd
      subst hd2
      show ((((lookupCell (scaleRound me) d2 DEPT_TOTAL ye).fsub
          (lookupCell (scaleRound me) d2 DEPT_TOTAL ys)).fdiv
          (lookupCell (scaleRound me) d2 DEPT_TOTAL ys)).fmul (FVal.num 100)).replaceInf
          = FVal.nan
      rw [h0, he]
      norm_num [FVal.fsub, FVal.fdiv, FVal.fmul, FVal.replaceInf, hpos]
    · simp at hout
  · intro me nh ys ye out hout row hrow c hc
    simp only [create_state_comparison_through_time] at hout
    split at hout
    · rw [Except.ok.injEq] at hout
      subst hout
      rcases List.mem_map.mp hrow with ⟨r2, _, rfl⟩
      have hc' : c ∈ [r2.meEnd.replaceInf, r2.meStart.replaceInf, r2.meChange.replaceInf,
          r2.mePerc.replaceInf, r2.nhEnd.replaceInf, r2.nhStart.replaceInf,
          r2.nhChange.replaceInf, r2.nhPerc.replaceInf, r2.diffEnd.replaceInf,
          r2.diffEndPerc.replaceInf, r2.diffStart.replaceInf, r2.growthDiff.replaceInf] := hc
      simp only [List.mem_cons, List.not_mem_nil, or_false] at hc'
      rcases hc' with rfl | rfl | rfl | rfl | rfl | rfl | rfl | rfl | rfl | rfl | rfl | rfl <;>
        exact FVal.replaceInf_not_isInf _
    · simp at hout

theorem perc_change_sentinel_witness :
    (⟨"Z", FVal.num 7, FVal.num 0, FVal.num 7, FVal.nan, FVal.num 5, FVal.num 3, FVal.num 2,
      FVal.num (200 / 3), FVal.num 2, FVal.num 40, FVal.num (-3), FVal.num 5⟩ : CompRow).mePerc
      = FVal.nan := by
  have hy1 : (decide (("2018" : String) = "2025")) = false := rfl
  have hy2 : (decide (("2025" : String) = "2018")) = false := rfl
  have h0 : roundHalfEven ((0 : ℚ)) = 0 := by norm_num [roundHalfEven]
  have h7 : roundHalfEven ((7 : ℚ)) = 7 := by norm_num [roundHalfEven]
  have h3 : roundHalfEven ((3 : ℚ)) = 3 := by norm_num [roundHalfEven]
  have h5 : roundHalfEven ((5 : ℚ)) = 5 := by norm_num [roundHalfEven]
  refine perc_change_sentinel.1
    [⟨"Z", "DEPARTMENT TOTAL", "2018", 0⟩, ⟨"Z", "DEPARTMENT TOTAL", "2025", 7000000⟩]
    [⟨"Z", "DEPARTMENT TOTAL", "2018", 3000000⟩, ⟨"Z", "DEPARTMENT TOTAL", "2025", 5000000⟩]
    "2018" "2025" "Z" 7 _ ?_ ?_ ?_ (by norm_num) _ (List.mem_singleton.mpr rfl) rfl
  · norm_num [create_state_comparison_through_time, scaleRound, h0, h7, h3, h5, lookupCell,
      lookupAmt3, DEPT_TOTAL, throughTimeRow, CompRow.replaceInfRow, sortBy, insertBy,
      FVal.sortBefore, FVal.fsub, FVal.fdiv, FVal.fmul, FVal.replaceInf, List.find?, hy1, hy2]
  · norm_num [lookupCell, lookupAmt3, scaleRound, DEPT_TOTAL, h0, h7, List.find?, hy1, hy2]
  · norm_num [lookupCell, lookupAmt3, scaleRound, DEPT_TOTAL, h0, h7, List.find?, hy1, hy2]

/-- C8 counterexample: on the claim's literal raw rows the reconciler does
not produce any totals: the grand-total row is labelled `GRAND TOTAL`, but
`clean_total_rows` drops (and pandas `drop` requires) the literal label
`GRAND TOTALS - ALL DEPARTMENTS`, so `process_me_budget` raises `KeyError`
instead of yielding `("TOTAL","DEPARTMENT TOTAL",2023)=120`. -/
theorem reconciler_literal_scenario_counterexample :
    process_me_budget
        [⟨"A", "GENERAL FUND", "2023", 100⟩, ⟨"A", "FEDERAL FUND", "2023", 20⟩,
         ⟨"A", "DEPARTMENT TOTAL", "2023", 120⟩,
         ⟨"GRAND TOTAL", "DEPARTMENT TOTAL", "2023", 120⟩]
      = Except.error "KeyError: GRAND TOTALS - ALL DEPARTMENTS not found in level Department" := by
  have h1 : clean_total_rows
      [⟨"A", "GENERAL FUND", "2023", 100⟩, ⟨"A", "FEDERAL FUND", "2023", 20⟩,
       ⟨"A", "DEPARTMENT TOTAL", "2023", 120⟩,
       ⟨"GRAND TOTAL", "DEPARTMENT TOTAL", "2023", 120⟩]
      = Except.error "KeyError: GRAND TOTALS - ALL DEPARTMENTS not found in level Department" := by
    simp [clean_total_rows, GRAND_TOTAL_LABEL]
  simp [process_me_budget, h1, Bind.bind, Except.bind]

/-- C8 (amended).  Total reconciler postcondition with the code's actual
sentinel labels: `add_department_total_ex_federal` gives every department
with a `DEPARTMENT TOTAL` cell and no `FEDERAL EXPENDITURES FUND` cell an
ex-federal amount equal to exactly its department total (provided some
department has the federal fund, else pandas `xs` raises); and on the raw
rows `(A,GENERAL FUND,2023)=100`, `(A,FEDERAL EXPENDITURES FUND,2023)=20`,
`(A,DEPARTMENT TOTAL,2023)=120`,
`(GRAND TOTALS - ALL DEPARTMENTS,DEPARTMENT TOTAL,2023)=120`, the
reconciler discards the grand-total row and yields
`(TOTAL,DEPARTMENT TOTAL,2023)=120` and
`(A,DEPARTMENT TOTAL ex FEDERAL,2023)=100`. -/
theorem total_reconciler_postcondition :
    (∀ (df : Table) (dpt yr : String) (q : ℚ),
      df.any (fun r => r.fs = FEDERAL_FUND) = true →
      lookupAmt3 df dpt DEPT_TOTAL yr = some q →
      (∀ r ∈ df, r.dept = dpt → r.year = yr → r.fs ≠ FEDERAL_FUND) →
      ∃ out, add_department_total_ex_federal df = Except.ok out ∧
        (⟨dpt, DEPT_TOTAL_EX_FEDERAL, yr, q⟩ : Row) ∈ out)
    ∧ (∃ out, process_me_budget
          [⟨"A", "GENERAL FUND", "2023", 100⟩,
           ⟨"A", "FEDERAL EXPENDITURES FUND", "2023", 20⟩,
           ⟨"A", "DEPARTMENT TOTAL", "2023", 120⟩,
           ⟨"GRAND TOTALS - ALL DEPARTMENTS", "DEPARTMENT TOTAL", "2023", 120⟩]
        = Except.ok out
        ∧ lookupAmt3 out "TOTAL" "DEPARTMENT TOTAL" "2023" = some 120
        ∧ lookupAmt3 out "A" "DEPARTMENT TOTAL ex FEDERAL" "2023" = some 100) := by
  constructor
  · intro df dpt yr q hfed hlook hno
    have hfind : ∃ r0, df.find? (fun r => r.dept = dpt && r.fs = DEPT_TOTAL && r.year = yr)
        = some r0 ∧ r0.amt = q := by
      unfold lookupAmt3 at hlook
      cases hf : df.find? (fun r => r.dept = dpt && r.fs = DEPT_TOTAL && r.year = yr) with
      | none => rw [hf] at hlook; cases hlook
      | some r0 => rw [hf] at hlook; exact ⟨r0, rfl, by simpa using hlook⟩
    rcases hfind with ⟨r0, hf, hamt⟩
    have hr0mem : r0 ∈ df := List.mem_of_find?_eq_some hf
    have hr0p := List.find?_some hf
    rw [Bool.and_eq_true, Bool.and_eq_true] at hr0p
    have hr0d : r0.dept = dpt := of_decide_eq_true hr0p.1.1
    have hr0fs : r0.fs = DEPT_TOTAL := of_decide_eq_true hr0p.1.2
    have hr0y : r0.year = yr := of_decide_eq_true hr0p.2
    have htot : df.any (fun r => r.fs = DEPT_TOTAL) = true :=
      List.any_eq_true.mpr ⟨r0, hr0mem, by simp [hr0fs]⟩
    unfold add_department_total_ex_federal
    rw [if_pos hfed, if_pos htot]
    refine ⟨_, rfl, ?_⟩
    apply List.mem_append.mpr
    right
    refine List.mem_map.mpr ⟨r0, List.mem_filter.mpr ⟨hr0mem, by simp [hr0fs]⟩, ?_⟩
    have hnone : df.find?
        (fun a => a.fs = FEDERAL_FUND && (a.dept = dpt && a.year = yr)) = none := by
      rw [List.find?_eq_none]
      intro f hfm
      simp only [Bool.and_eq_true, decide_eq_true_eq, not_and]
      intro hffs hfd hfy
      exact absurd hffs (hno f hfm hfd hfy)
    simp [hnone, hr0d, hr0y, hamt]
  · have h1 : clean_total_rows
        [⟨"A", "GENERAL FUND", "2023", 100⟩, ⟨"A", "FEDERAL EXPENDITURES FUND", "2023", 20⟩,
         ⟨"A", "DEPARTMENT TOTAL", "2023", 120⟩,
         ⟨"GRAND TOTALS - ALL DEPARTMENTS", "DEPARTMENT TOTAL", "2023", 120⟩]
        = Except.ok
          [⟨"A", "GENERAL FUND", "2023", 100⟩, ⟨"A", "FEDERAL EXPENDITURES FUND", "2023", 20⟩,
           ⟨"A", "DEPARTMENT TOTAL", "2023", 120⟩,
           ⟨"TOTAL", "GENERAL FUND", "2023", 100⟩,
           ⟨"TOTAL", "FEDERAL EXPENDITURES FUND", "2023", 20⟩,
           ⟨"TOTAL", "DEPARTMENT TOTAL", "2023", 120⟩] := by
      simp [clean_total_rows, GRAND_TOTAL_LABEL, sumFYkey]
    have h2 : add_department_total_ex_federal
        [⟨"A", "GENERAL FUND", "2023", 100⟩, ⟨"A", "FEDERAL EXPENDITURES FUND", "2023", 20⟩,
         ⟨"A", "DEPARTMENT TOTAL", "2023", 120⟩,
         ⟨"TOTAL", "GENERAL FUND", "2023", 100⟩,
         ⟨"TOTAL", "FEDERAL EXPENDITURES FUND", "2023", 20⟩,
         ⟨"TOTAL", "DEPARTMENT TOTAL", "2023", 120⟩]
        = Except.ok
          [⟨"A", "GENERAL FUND", "2023", 100⟩, ⟨"A", "FEDERAL EXPENDITURES FUND", "2023", 20⟩,
           ⟨"A", "DEPARTMENT TOTAL", "2023", 120⟩,
           ⟨"TOTAL", "GENERAL FUND", "2023", 100⟩,
           ⟨"TOTAL", "FEDERAL EXPENDITURES FUND", "2023", 20⟩,
           ⟨"TOTAL", "DEPARTMENT TOTAL", "2023", 120⟩,
           ⟨"A", "DEPARTMENT TOTAL ex FEDERAL", "2023", 100⟩,
           ⟨"TOTAL", "DEPARTMENT TOTAL ex FEDERAL", "2023", 100⟩] := by
      simp [add_department_total_ex_federal, DEPT_TOTAL, FEDERAL_FUND,
        DEPT_TOTAL_EX_FEDERAL, List.find?]
      norm_num
    refine ⟨[⟨"A", "GENERAL FUND", "2023", 100⟩, ⟨"A", "FEDERAL EXPENDITURES FUND", "2023", 20⟩,
        ⟨"A", "DEPARTMENT TOTAL", "2023", 120⟩,
        ⟨"TOTAL", "GENERAL FUND", "2023", 100⟩,
        ⟨"TOTAL", "FEDERAL EXPENDITURES FUND", "2023", 20⟩,
        ⟨"TOTAL", "DEPARTMENT TOTAL", "2023", 120⟩,
        ⟨"A", "DEPARTMENT TOTAL ex FEDERAL", "2023", 100⟩,
        ⟨"TOTAL", "DEPARTMENT TOTAL ex FEDERAL", "2023", 100⟩], ?_, ?_, ?_⟩
    · have hp : process_me_budget
          [⟨"A", "GENERAL FUND", "2023", 100⟩, ⟨"A", "FEDERAL EXPENDITURES FUND", "2023", 20⟩,
           ⟨"A", "DEPARTMENT TOTAL", "2023", 120⟩,
           ⟨"GRAND TOTALS - ALL DEPARTMENTS", "DEPARTMENT TOTAL", "2023", 120⟩]
          = clean_total_rows
              [⟨"A", "GENERAL FUND", "2023", 100⟩, ⟨"A", "FEDERAL EXPENDITURES FUND", "2023", 20⟩,
               ⟨"A", "DEPARTMENT TOTAL", "2023", 120⟩,
               ⟨"GRAND TOTALS - ALL DEPARTMENTS", "DEPARTMENT TOTAL", "2023", 120⟩]
            >>= add_department_total_ex_federal := rfl
      rw [hp, h1]
      exact h2
    · simp [lookupAmt3, List.find?]
    · simp [lookupAmt3, List.find?]

theorem total_reconciler_witness :
    ∃ out, add_department_total_ex_federal
        [⟨"B", "DEPARTMENT TOTAL", "2023", (40 : ℚ)⟩,
         ⟨"A", "FEDERAL EXPENDITURES FUND", "2023", (20 : ℚ)⟩,
         ⟨"A", "DEPARTMENT TOTAL", "2023", (120 : ℚ)⟩]
      = Except.ok out ∧ (⟨"B", DEPT_TOTAL_EX_FEDERAL, "2023", (40 : ℚ)⟩ : Row) ∈ out :=
  total_reconciler_postcondition.1
    [⟨"B", "DEPARTMENT TOTAL", "2023", 40⟩,
     ⟨"A", "FEDERAL EXPENDITURES FUND", "2023", 20⟩,
     ⟨"A", "DEPARTMENT TOTAL", "2023", 120⟩]
    "B" "2023" 40
    (by simp [FEDERAL_FUND])
    (by simp [lookupAmt3, DEPT_TOTAL, List.find?])
    (by
      intro r hr
      simp only [List.mem_cons, List.not_mem_nil, or_false] at hr
      rcases hr with rfl | rfl | rfl <;> simp [FEDERAL_FUND, DEPT_TOTAL])

/-- C4 counterexample: a failing economic fetch aborts the whole run of
`main` — with every other input valid, `mainPipeline` propagates the
fetch's error, so the through-time comparison records are not produced,
contradicting the claim that components 1–6 still complete. -/
theorem econ_fetch_failure_counterexample :
    mainPipeline
      ⟨[⟨"A", "GENERAL FUND", "2023", 100⟩, ⟨"A", "FEDERAL EXPENDITURES FUND", "2023", 20⟩,
        ⟨"A", "DEPARTMENT TOTAL", "2023", 120⟩,
        ⟨"GRAND TOTALS - ALL DEPARTMENTS", "DEPARTMENT TOTAL", "2023", 120⟩],
       [⟨"W", "DEPARTMENT TOTAL", "2025", 10⟩],
       [⟨"Maine", "A", "X"⟩, ⟨"Maine", "TOTAL", "TOTALS"⟩, ⟨"New Hampshire", "W", "X"⟩],
       [], Except.error "ConnectionError", "2018", "2025"⟩
      = Except.error "ConnectionError" := rfl

/-- C4 (amended).  `main` wraps no `try`/`except` around
`get_economic_indicators_df`: whenever the economic fetch fails, the run
produces no output at all — in particular the comparison records computed
after the fetch are never built (the standardized tables are computed
earlier in the run but the pipeline aborts before returning anything). -/
theorem econ_fetch_failure_aborts_pipeline (inp : Inputs) (e : String)
    (hfetch : inp.econFetch = Except.error e) :
    ∀ out, mainPipeline inp ≠ Except.ok out := by
  intro out h
  unfold mainPipeline at h
  cases hp : process_me_budget inp.meRaw with
  | error e2 =>
    rw [hp] at h
    simp [Bind.bind, Except.bind] at h
  | ok mp =>
    rw [hp] at h
    simp [Bind.bind, Except.bind, hfetch] at h

theorem econ_fetch_failure_witness :
    mainPipeline
      ⟨[⟨"A", "GENERAL FUND", "2023", 100⟩, ⟨"A", "FEDERAL EXPENDITURES FUND", "2023", 20⟩,
        ⟨"A", "DEPARTMENT TOTAL", "2023", 120⟩,
        ⟨"GRAND TOTALS - ALL DEPARTMENTS", "DEPARTMENT TOTAL", "2023", 120⟩],
       [⟨"W", "DEPARTMENT TOTAL", "2025", 10⟩],
       [⟨"Maine", "A", "X"⟩, ⟨"Maine", "TOTAL", "TOTALS"⟩, ⟨"New Hampshire", "W", "X"⟩],
       [], Except.error "ConnectionError", "2018", "2025"⟩
      ≠ Except.ok ⟨[], [], [], [], []⟩ :=
  econ_fetch_failure_aborts_pipeline _ "ConnectionError" rfl ⟨[], [], [], [], []⟩

/-- The function `List.lookup` commutes with mapping the values of an association list. -/
theorem lookup_map_value {β γ : Type} (f : β → γ) (y : String) :
    ∀ l : List (String × β),
      (l.map (fun c => (c.1, f c.2))).lookup y = (l.lookup y).map f := by
  intro l
  induction l with
  | nil => rfl
  | cons c cs ih =>
    obtain ⟨k, b⟩ := c
    cases h : (y == k) <;> simp [List.lookup, h, ih]

/-- C9 (amended).  `produce_economic_index_df` re-bases each named macro
series by dividing it by its own first-column value (`iloc[:, 0]`): a
series with value `q ≠ 0` in the first year column gets `v / q` at every
year holding `v` — in particular 1.0 at the first column itself — but this
is division by the first column, not by the series' own first in-range
observation. -/
theorem economic_index_rebasing (econ : EconDf) (r : EconRow) (q v : ℚ) (y : String)
    (hr : r ∈ econ) (hfc : firstCell r = FVal.num q) (hq0 : q ≠ 0)
    (hv : r.cells.lookup y = some (FVal.num v))
    (c0 p0 : EconRow)
    (hcpi : econ.find? (fun x => x.name = "CPI") = some c0)
    (hpop : econ.find? (fun x => x.name = "Maine Population") = some p0) :
    ∃ out, produce_economic_index_df econ = Except.ok out ∧
      ∃ row ∈ out, row.name = r.name ∧ row.cells.lookup y = some (FVal.num (v / q)) := by
  simp only [produce_economic_index_df, add_cpi_times_pop_growth_index]
  rw [List.find?_map, List.find?_map]
  have hf1 : List.find? ((fun x : EconRow => x.name = "CPI") ∘
      (fun r : EconRow => EconRow.mk r.name
        (r.cells.map (fun c => (c.1, c.2.fdiv (firstCell r)))))) econ = some c0 := hcpi
  have hf2 : List.find? ((fun x : EconRow => x.name = "Maine Population") ∘
      (fun r : EconRow => EconRow.mk r.name
        (r.cells.map (fun c => (c.1, c.2.fdiv (firstCell r)))))) econ = some p0 := hpop
  rw [hf1, hf2]
  refine ⟨_, rfl, ?_⟩
  refine ⟨EconRow.mk r.name
    (r.cells.map (fun c => (c.1, c.2.fdiv (firstCell r)))), ?_, rfl, ?_⟩
  · exact List.mem_append.mpr (Or.inl (List.mem_map_of_mem _ hr))
  · show (r.cells.map (fun c => (c.1, c.2.fdiv (firstCell r)))).lookup y = _
    rw [lookup_map_value (fun b : FVal => b.fdiv (firstCell r)) y r.cells, hv, hfc]
    simp [FVal.fdiv, hq0]

/-- C9 counterexample: a series whose native data begins after the start
year (NaN in the first year column) is not normalized against its own
first in-range observation: dividing by its NaN first-column value makes
the whole rebased row NaN, so its rebased value is not well-defined (NaN,
not 1.0). -/
theorem late_series_not_rebased_counterexample :
    ∃ out, produce_economic_index_df
        [⟨"CPI", [("2016", FVal.num 100), ("2017", FVal.num 110)]⟩,
         ⟨"Maine Population", [("2016", FVal.num 10), ("2017", FVal.num 10)]⟩,
         ⟨"Maine GDP", [("2016", FVal.nan), ("2017", FVal.num 50)]⟩]
      = Except.ok out
      ∧ ∃ row ∈ out, row.name = "Maine GDP"
        ∧ row.cells.lookup "2017" = some FVal.nan ∧ FVal.nan ≠ FVal.num 1 := by
  refine ⟨_, rfl, ?_⟩
  refine ⟨EconRow.mk "Maine GDP" [("2016", FVal.nan), ("2017", FVal.nan)], ?_, rfl, rfl, by simp⟩
  simp [produce_economic_index_df, add_cpi_times_pop_growth_index, firstCell,
    FVal.fdiv, List.find?, econLookup, FVal.fmul, List.lookup]

theorem economic_index_rebasing_witness :
    ∃ out, produce_economic_index_df
        [⟨"CPI", [("2016", FVal.num 100), ("2017", FVal.num 110)]⟩,
         ⟨"Maine Population", [("2016", FVal.num 1), ("2017", FVal.num 1)]⟩]
      = Except.ok out
      ∧ ∃ row ∈ out, row.name = "CPI"
        ∧ row.cells.lookup "2017" = some (FVal.num (110 / 100)) :=
  economic_index_rebasing _ ⟨"CPI", [("2016", FVal.num 100), ("2017", FVal.num 110)]⟩ 100 110 "2017"
    (by simp) rfl (by norm_num) rfl _ _ rfl rfl

theorem conservation_of_totals_witness :
    deptTotalSum (standardize_budget
        [⟨"B", "DEPARTMENT TOTAL", "2025", (500 : ℚ)⟩, ⟨"B", "GRANTS", "2025", 80⟩]
        [⟨"Maine", "B", "X"⟩] [⟨"Maine", "B", "GRANTS", "Y"⟩] "Maine").1 "2025"
      = deptTotalSum
        [⟨"B", "DEPARTMENT TOTAL", "2025", (500 : ℚ)⟩, ⟨"B", "GRANTS", "2025", 80⟩] "2025" :=
  conservation_of_totals _ _ _ "Maine" "2025"
    (by
      intro r hr
      simp only [List.mem_cons, List.not_mem_nil, or_false] at hr
      rcases hr with rfl | rfl <;> exact ⟨⟨"Maine", "B", "X"⟩, by simp, rfl, rfl⟩)
    (by simp) (by simp) (by simp [Row.keyOf])
    (by
      intro m hm _
      simp only [List.mem_cons, List.not_mem_nil, or_false] at hm
      subst hm
      simp [DEPT_TOTAL])

end OwenForMaine
